import Mathlib

/-!
# Verification of the `bandwidth-saver-worker` image caching proxy

Shallow embedding of the worker's source (URL parser/validator, origin
fetcher helpers, cache handlers, request orchestrator, and the per-site
usage aggregation actor `SiteUsageTracker`) together with proofs of the
behavioural properties stated in the natural-language specification.

Counters of the usage tracker are JavaScript numbers holding integers, so
they are embedded as `Int`; fallible JavaScript operations (`throw`) are
embedded with `Except`/`Option`.
-/

namespace ImgPro

/-! ## Usage aggregation actor (`src/utils.ts`, class `SiteUsageTracker`)

In-memory state of a tracker instance: the private fields of the class.
Counters are JS numbers (integral) and are embedded as `Int`.
-/

structure Mem where
  siteId : Int
  domain : String
  requests : Int
  cacheHits : Int
  cacheMisses : Int
  d1Failures : Int
  initialized : Bool
  deriving Repr, DecidableEq

/-- Persisted state: the durable-object storage keys written by the
tracker, plus whether a flush alarm is currently scheduled. -/
structure Store where
  siteId : Int
  domain : String
  requests : Int
  cacheHits : Int
  cacheMisses : Int
  d1Failures : Int
  alarmSet : Bool
  deriving Repr, DecidableEq

/-- `storage.deleteAll()` followed by `storage.deleteAlarm()`:
all keys removed (each read would yield its zero default), no alarm. -/
def Store.cleared : Store :=
  { siteId := 0, domain := "", requests := 0, cacheHits := 0
    cacheMisses := 0, d1Failures := 0, alarmSet := false }

/-- The payload of a usage event (`UsageMetrics` in `src/utils.ts`). -/
structure UsageMetrics where
  siteId : Int
  domain : String
  cacheHit : Bool
  deriving Repr, DecidableEq

/-- `SiteUsageTracker.fetch` (the record-event handler): on the first
event capture `siteId`/`domain`; increment `requests` and exactly one of
`cacheHits`/`cacheMisses`; persist the counters with one `storage.put`.
`putOk` tells whether that `storage.put` succeeds; when it throws, the
handler's `catch` returns a 500 and the storage is left unwritten while
the in-memory increments remain. -/
def recordEvent (mem : Mem) (store : Store) (m : UsageMetrics) (putOk : Bool) :
    Mem × Store :=
  let mem1 :=
    if !mem.initialized then
      { mem with initialized := true, siteId := m.siteId, domain := m.domain }
    else mem
  let mem2 :=
    { mem1 with
      requests := mem1.requests + 1
      cacheHits := if m.cacheHit then mem1.cacheHits + 1 else mem1.cacheHits
      cacheMisses := if m.cacheHit then mem1.cacheMisses else mem1.cacheMisses + 1 }
  let store2 :=
    if putOk then
      if !mem.initialized then
        { store with
          siteId := m.siteId, domain := m.domain
          requests := mem2.requests, cacheHits := mem2.cacheHits
          cacheMisses := mem2.cacheMisses }
      else
        { store with
          requests := mem2.requests, cacheHits := mem2.cacheHits
          cacheMisses := mem2.cacheMisses }
    else store
  (mem2, store2)

/-- Result of one run of the `alarm` flush handler. `alerted` records
whether the consecutive-failure alert was logged; `rescheduleAttempted`
records whether the handler called `storage.setAlarm` for the next
period (the `finally` block, or the idle branch). -/
structure AlarmResult where
  mem : Mem
  store : Store
  alerted : Bool
  rescheduleAttempted : Bool
  deriving Repr, DecidableEq

/-- `SiteUsageTracker.alarm` (the flush handler), `src/utils.ts` lines
254–396, embedded with its interleaving semantics made explicit:

* `configured` — whether `env.BILLING_DB` is bound;
* `dHits`/`dMisses` — the record-events that interleave during the
  `await` of the external D1 batch write (each such event adds one
  request and one hit or miss; D1 I/O is the only await at which the
  runtime lets `fetch` handlers interleave with the alarm);
* `d1Ok` — whether the external batched write succeeds;
* `putOk` — whether the subsequent `storage.put` succeeds;
* `alarmOk` — whether `storage.setAlarm` succeeds.

The branches mirror the source: unconfigured sink → zero counters,
`deleteAll`, `deleteAlarm`, return without rescheduling; idle
(`requests === 0`) → reschedule only; otherwise snapshot, write to D1,
on success subtract exactly the snapshot and reset `d1Failures`, on
failure increment and persist `d1Failures` and alert at the threshold;
in all non-misconfigured cases the `finally` reschedules the alarm. -/
def alarm (mem : Mem) (store : Store) (configured : Bool)
    (dHits dMisses : Nat) (d1Ok putOk alarmOk : Bool) : AlarmResult :=
  if !configured then
    { mem := { mem with requests := 0, cacheHits := 0, cacheMisses := 0 }
      store := Store.cleared
      alerted := false
      rescheduleAttempted := false }
  else if mem.requests == 0 then
    { mem := mem
      store := { store with alarmSet := alarmOk }
      alerted := false
      rescheduleAttempted := true }
  else
    -- snapshot captured before any await point
    let flushRequests := mem.requests
    let flushCacheHits := mem.cacheHits
    let flushCacheMisses := mem.cacheMisses
    -- events recorded while the D1 batch write is being awaited
    let memD : Mem :=
      { mem with
        requests := mem.requests + (dHits + dMisses)
        cacheHits := mem.cacheHits + dHits
        cacheMisses := mem.cacheMisses + dMisses }
    if d1Ok then
      let mem2 : Mem :=
        { memD with
          requests := memD.requests - flushRequests
          cacheHits := memD.cacheHits - flushCacheHits
          cacheMisses := memD.cacheMisses - flushCacheMisses
          d1Failures := 0 }
      let store2 : Store :=
        if putOk then
          { store with
            requests := mem2.requests, cacheHits := mem2.cacheHits
            cacheMisses := mem2.cacheMisses, d1Failures := 0 }
        else store
      { mem := mem2
        store := { store2 with alarmSet := alarmOk }
        alerted := false
        rescheduleAttempted := true }
    else
      let mem2 : Mem := { memD with d1Failures := memD.d1Failures + 1 }
      let store2 : Store :=
        if putOk then { store with d1Failures := mem2.d1Failures } else store
      -- the alert log sits after the storage.put inside the same try,
      -- so it is only reached when that put succeeded
      { mem := mem2
        store := { store2 with alarmSet := alarmOk }
        alerted := putOk && decide (mem2.d1Failures ≥ 5)
        rescheduleAttempted := true }

/-- Invariant of the tracker state as the specification phrases it: all
counters are non-negative and, once the instance is initialized, the
request counter equals hits plus misses. -/
def memInvClaim (m : Mem) : Prop :=
  0 ≤ m.requests ∧ 0 ≤ m.cacheHits ∧ 0 ≤ m.cacheMisses ∧ 0 ≤ m.d1Failures ∧
  (m.initialized = true → m.requests = m.cacheHits + m.cacheMisses)

/-- Strengthened (inductive) invariant: the sum equation holds
unconditionally, not only once `initialized` is set. -/
def memInv (m : Mem) : Prop :=
  0 ≤ m.requests ∧ 0 ≤ m.cacheHits ∧ 0 ≤ m.cacheMisses ∧ 0 ≤ m.d1Failures ∧
  m.requests = m.cacheHits + m.cacheMisses

/-- Invariant on the persisted counters. -/
def storeInv (s : Store) : Prop :=
  0 ≤ s.requests ∧ 0 ≤ s.cacheHits ∧ 0 ≤ s.cacheMisses ∧ 0 ≤ s.d1Failures ∧
  s.requests = s.cacheHits + s.cacheMisses

/-! ## String helpers modelling the JavaScript primitives the worker uses -/

/-- JavaScript `str.split(sep)` for a one-character separator, on char
lists. Adjacent separators produce empty segments, exactly as in JS. -/
def splitOnChar (sep : Char) : List Char → List (List Char)
  | [] => [[]]
  | c :: cs =>
    if c == sep then [] :: splitOnChar sep cs
    else
      match splitOnChar sep cs with
      | [] => [[c]]
      | p :: ps => (c :: p) :: ps

/-- JavaScript `parts.join(sep)` for a one-character separator. -/
def joinChar (sep : Char) : List (List Char) → List Char
  | [] => []
  | [p] => p
  | p :: ps => p ++ sep :: joinChar sep ps

/-- Boolean prefix test on char lists. -/
def isPrefixList : List Char → List Char → Bool
  | [], _ => true
  | _ :: _, [] => false
  | a :: as, b :: bs => a == b && isPrefixList as bs

/-- JavaScript `str.includes(sub)` on char lists. -/
def listIncludes (sub : List Char) : List Char → Bool
  | [] => isPrefixList sub []
  | c :: cs => isPrefixList sub (c :: cs) || listIncludes sub cs

/-- JavaScript `str.includes(sub)`. -/
def strIncludes (s sub : String) : Bool :=
  listIncludes sub.data s.data

/-- ASCII decimal digit test (JS `\d`, and the digits `parseInt` consumes). -/
def isDigitChar (c : Char) : Bool :=
  '0' ≤ c && c ≤ '9'

/-- Whitespace skipped by JS `parseInt` before the number. -/
def isJsSpace (c : Char) : Bool :=
  c == ' ' || c == '\t' || c == '\n' || c == '\r' || c == '\x0b' || c == '\x0c'

/-- Longest digit prefix as a pair (value, number of digits consumed). -/
def digitsPrefix : List Char → Nat × Nat
  | [] => (0, 0)
  | c :: cs =>
    if isDigitChar c then
      let (v, k) := digitsPrefix cs
      (v + (c.toNat - '0'.toNat) * 10 ^ k, k + 1)
    else (0, 0)

/-- JavaScript `parseInt(s, 10)`: skip leading whitespace, optional
sign, then the longest run of decimal digits; `none` models `NaN`
(no digits found). Digits after the run are ignored. -/
def jsParseInt10 (s : String) : Option Int :=
  let l := s.data.dropWhile isJsSpace
  let (neg, rest) :=
    match l with
    | '-' :: r => (true, r)
    | '+' :: r => (false, r)
    | r => (false, r)
  let (v, k) := digitsPrefix rest
  if k == 0 then none
  else some (if neg then -(v : Int) else (v : Int))

/-- JavaScript truthiness of a nullable header string: `null` and the
empty string are falsy. -/
def truthy : Option String → Bool
  | none => false
  | some s => s != ""

/-- ASCII lower-casing of one character (the strings the worker
compares are ASCII; `toLowerCase` agrees with this on them). -/
def charLower (c : Char) : Char :=
  if 'A' ≤ c && c ≤ 'Z' then Char.ofNat (c.toNat + 32) else c

/-- ASCII upper-casing of one character. -/
def charUpper (c : Char) : Char :=
  if 'a' ≤ c && c ≤ 'z' then Char.ofNat (c.toNat - 32) else c

/-- JavaScript `str.toLowerCase()` (ASCII model). -/
def strLower (s : String) : String :=
  String.mk (s.data.map charLower)

/-- JavaScript `str.toUpperCase()` (ASCII model). -/
def strUpper (s : String) : String :=
  String.mk (s.data.map charUpper)

/-- JavaScript `str.trim()` (ASCII whitespace model). -/
def strTrim (s : String) : String :=
  String.mk (((s.data.dropWhile isJsSpace).reverse.dropWhile isJsSpace).reverse)

/-- JavaScript `str.startsWith(pre)`. -/
def strStartsWith (s pre : String) : Bool :=
  isPrefixList pre.data s.data

/-- JavaScript `str.endsWith(suf)`. -/
def strEndsWith (s suf : String) : Bool :=
  isPrefixList suf.data.reverse s.data.reverse

/-- JavaScript `str.substring(n)` / dropping `n` leading characters. -/
def strDrop (s : String) (n : Nat) : String :=
  String.mk (s.data.drop n)

/-! ## Percent-coding (`encodeURIComponent` / `decodeURIComponent`) -/

/-- Characters `encodeURIComponent` leaves unescaped:
alphanumerics and `- _ . ! ~ * ' ( )`. -/
def isUriUnreserved (c : Char) : Bool :=
  ('A' ≤ c && c ≤ 'Z') || ('a' ≤ c && c ≤ 'z') || ('0' ≤ c && c ≤ '9') ||
  c == '-' || c == '_' || c == '.' || c == '!' || c == '~' || c == '*' ||
  c == Char.ofNat 39 || c == '(' || c == ')'

/-- UTF-8 encoding of one scalar value, as its list of bytes. -/
def utf8Bytes (c : Char) : List Nat :=
  let n := c.toNat
  if n < 0x80 then [n]
  else if n < 0x800 then [0xC0 + n / 64, 0x80 + n % 64]
  else if n < 0x10000 then
    [0xE0 + n / 4096, 0x80 + (n / 64) % 64, 0x80 + n % 64]
  else
    [0xF0 + n / 262144, 0x80 + (n / 4096) % 64, 0x80 + (n / 64) % 64, 0x80 + n % 64]

/-- Uppercase hexadecimal digit. -/
def hexDigitUpper (n : Nat) : Char :=
  if n < 10 then Char.ofNat ('0'.toNat + n) else Char.ofNat ('A'.toNat + (n - 10))

/-- Percent-escape of one byte, `%XY` with uppercase hex. -/
def byteToHexPct (b : Nat) : List Char :=
  ['%', hexDigitUpper (b / 16), hexDigitUpper (b % 16)]

/-- JavaScript `encodeURIComponent`: unreserved characters pass through,
every other character is UTF-8 encoded and percent-escaped. -/
def encodeURIComponent (s : String) : String :=
  String.mk (s.data.flatMap fun c =>
    if isUriUnreserved c then [c] else (utf8Bytes c).flatMap byteToHexPct)

/-- Value of a hexadecimal digit, `none` when the character is not one. -/
def hexVal (c : Char) : Option Nat :=
  if '0' ≤ c && c ≤ '9' then some (c.toNat - '0'.toNat)
  else if 'A' ≤ c && c ≤ 'F' then some (c.toNat - 'A'.toNat + 10)
  else if 'a' ≤ c && c ≤ 'f' then some (c.toNat - 'a'.toNat + 10)
  else none

/-- Token stream produced by percent-unescaping: a raw character, or a
byte that came from a `%XY` escape. -/
inductive PctTok where
  | byte (b : Nat)
  | raw (c : Char)
  deriving Repr, DecidableEq

/-- First phase of `decodeURIComponent`: read every `%XY` escape into a
byte token; `none` models the `URIError` on a malformed escape (a `%`
not followed by two hexadecimal digits). -/
def pctTokens : List Char → Option (List PctTok)
  | [] => some []
  | c :: rest =>
    if c == '%' then
      match rest with
      | h1 :: h2 :: rest2 => do
        let a ← hexVal h1
        let b ← hexVal h2
        let ts ← pctTokens rest2
        pure (PctTok.byte (a * 16 + b) :: ts)
      | _ => none
    else do
      let ts ← pctTokens rest
      pure (PctTok.raw c :: ts)

/-- Second phase of `decodeURIComponent`: assemble escaped bytes into
UTF-8 sequences; any invalid sequence (stray continuation byte, overlong
form, surrogate, out-of-range value) is a `URIError` (`none`). -/
def utf8Assemble : List PctTok → Option (List Char)
  | [] => some []
  | .raw c :: rest => do
    let cs ← utf8Assemble rest
    pure (c :: cs)
  | .byte b :: rest =>
    if b < 0x80 then do
      let cs ← utf8Assemble rest
      pure (Char.ofNat b :: cs)
    else if b < 0xC2 then none
    else if b < 0xE0 then
      match rest with
      | .byte c1 :: rest1 =>
        if 0x80 ≤ c1 && c1 < 0xC0 then do
          let cs ← utf8Assemble rest1
          pure (Char.ofNat ((b - 0xC0) * 64 + (c1 - 0x80)) :: cs)
        else none
      | _ => none
    else if b < 0xF0 then
      match rest with
      | .byte c1 :: .byte c2 :: rest2 =>
        let cp := (b - 0xE0) * 4096 + (c1 - 0x80) * 64 + (c2 - 0x80)
        if (0x80 ≤ c1 && c1 < 0xC0) && (0x80 ≤ c2 && c2 < 0xC0) &&
           decide (0x800 ≤ cp) && !(decide (0xD800 ≤ cp) && decide (cp < 0xE000)) then do
          let cs ← utf8Assemble rest2
          pure (Char.ofNat cp :: cs)
        else none
      | _ => none
    else if b < 0xF5 then
      match rest with
      | .byte c1 :: .byte c2 :: .byte c3 :: rest3 =>
        let cp := (b - 0xF0) * 262144 + (c1 - 0x80) * 4096 + (c2 - 0x80) * 64 + (c3 - 0x80)
        if (0x80 ≤ c1 && c1 < 0xC0) && (0x80 ≤ c2 && c2 < 0xC0) &&
           (0x80 ≤ c3 && c3 < 0xC0) &&
           decide (0x10000 ≤ cp) && decide (cp ≤ 0x10FFFF) then do
          let cs ← utf8Assemble rest3
          pure (Char.ofNat cp :: cs)
        else none
      | _ => none
    else none

/-- JavaScript `decodeURIComponent`; `none` models a thrown `URIError`. -/
def decodeURIComponent (s : String) : Option String := do
  let ts ← pctTokens s.data
  let cs ← utf8Assemble ts
  pure (String.mk cs)

/-! ## URL validation (`src/validation.ts`) -/

/-- Character class `[a-z0-9]` under the regex's `/i` flag. -/
def isLabelChar (c : Char) : Bool :=
  ('a' ≤ c && c ≤ 'z') || ('A' ≤ c && c ≤ 'Z') || isDigitChar c

/-- Character class `[a-z0-9-]` under the regex's `/i` flag. -/
def isLabelMidChar (c : Char) : Bool :=
  isLabelChar c || c == '-'

/-- Language of the non-final label pattern
`[a-z0-9](?:[a-z0-9-]{0,61}[a-z0-9])?`: one alphanumeric character, or
2–63 characters starting and ending alphanumeric with hyphens allowed
in between. -/
def matchesMidLabel (l : List Char) : Bool :=
  match l with
  | [] => false
  | [c] => isLabelChar c
  | c :: rest =>
    isLabelChar c && isLabelChar (rest.getLastD c) &&
    rest.dropLast.all isLabelMidChar && decide (l.length ≤ 63)

/-- Language of the final label pattern `[a-z0-9][a-z0-9-]{0,61}[a-z0-9]`:
2–63 characters starting and ending alphanumeric. -/
def matchesLastLabel (l : List Char) : Bool :=
  match l with
  | [] => false
  | [_] => false
  | c :: rest =>
    isLabelChar c && isLabelChar (rest.getLastD c) &&
    rest.dropLast.all isLabelMidChar && decide (l.length ≤ 63)

/-- Language of `/^\d{1,3}\.\d{1,3}\.\d{1,3}\.\d{1,3}$/`: four runs of
one to three digits joined by dots. -/
def isDottedQuad (s : String) : Bool :=
  let parts := splitOnChar '.' s.data
  parts.length == 4 &&
  parts.all fun p => decide (1 ≤ p.length) && decide (p.length ≤ 3) && p.all isDigitChar

/-- `isValidDomain` from `src/validation.ts`: `localhost`, a dotted
quad, or a sequence of two or more RFC-1123-style labels. -/
def isValidDomain (domain : String) : Bool :=
  if domain == "localhost" then true
  else if isDottedQuad domain then true
  else
    let parts := splitOnChar '.' domain.data
    match parts with
    | [] => false
    | [_] => false
    | _ => parts.dropLast.all matchesMidLabel && matchesLastLabel (parts.getLastD [])

/-- Hostname of an `http(s)` URL, as `new URL(u).hostname` computes it:
the authority up to `/`, `?` or `#`, without userinfo and port, in lower
case. The worker only ever parses the `https` URLs it builds itself;
strings without an `http(s)` scheme are treated as URL parse failures
(`none`), which the caller's `catch` turns into a rejection. -/
def hostnameOf (sourceUrl : String) : Option String :=
  let l := sourceUrl.data
  let afterScheme : Option (List Char) :=
    if isPrefixList "https://".data l then some (l.drop 8)
    else if isPrefixList "http://".data l then some (l.drop 7)
    else none
  match afterScheme with
  | none => none
  | some rest =>
    let auth := rest.takeWhile fun c => !(c == '/' || c == '?' || c == '#')
    let hostPort := (splitOnChar '@' auth).getLastD []
    let host := hostPort.takeWhile fun c => !(c == ':')
    if host.isEmpty then none
    else some (strLower (String.mk host))

/-- `isAllowedOrigin` from `src/validation.ts`: `*` allows everything;
otherwise the URL's hostname is matched against the comma-separated,
trimmed, lower-cased entries — a `*.suffix` entry by `endsWith` on the
suffix, any other entry by equality. -/
def isAllowedOrigin (sourceUrl allowedOrigins : String) : Bool :=
  if allowedOrigins == "*" then true
  else
    match hostnameOf sourceUrl with
    | none => false
    | some hostname =>
      let origins := (splitOnChar ',' allowedOrigins.data).map
        fun o => strLower (strTrim (String.mk o))
      origins.any fun origin =>
        if origin == "*" then true
        else if strStartsWith origin "*." then strEndsWith hostname (strDrop origin 2)
        else hostname == origin

/-- Image MIME types accepted by `isImageContentType`. -/
def imageTypes : List String :=
  ["image/jpeg", "image/jpg", "image/png", "image/gif",
   "image/webp", "image/avif", "image/svg+xml",
   "image/bmp", "image/tiff", "image/x-icon",
   "image/heic", "image/heif", "image/jxl"]

/-- `isImageContentType` from `src/validation.ts`: false on a missing
(empty) content type, otherwise a case-insensitive substring match
against the fixed list of image MIME types. -/
def isImageContentType (contentType : String) : Bool :=
  if contentType == "" then false
  else imageTypes.any fun t => strIncludes (strLower contentType) t

/-! ## Utilities (`src/utils.ts`) and origin fetching (`src/origin.ts`) -/

/-- Numeric value of a digit run. -/
def natOfDigits (l : List Char) : Nat :=
  l.foldl (fun a c => a * 10 + (c.toNat - '0'.toNat)) 0

/-- `parseFileSize` from `src/utils.ts`: matches
`/^(\d+(?:\.\d+)?)\s*(B|KB|MB|GB|TB)?$/i` and floors value times
multiplier. Fractional values are embedded with exact rational
arithmetic (the source floors an IEEE product; the claims only exercise
integral sizes such as the `"50MB"` default, where both agree). -/
def parseFileSize (sizeStr : String) : Except String Nat :=
  let l := sizeStr.data
  let ip := l.takeWhile isDigitChar
  let rest1 := l.dropWhile isDigitChar
  if ip.isEmpty then .error ("Invalid file size format: " ++ sizeStr)
  else
    let fp :=
      match rest1 with
      | '.' :: r => r.takeWhile isDigitChar
      | _ => []
    let rest2 :=
      match rest1 with
      | '.' :: r => r.dropWhile isDigitChar
      | r => r
    if (match rest1 with | '.' :: _ => fp.isEmpty | _ => false) then
      .error ("Invalid file size format: " ++ sizeStr)
    else
      let rest3 := rest2.dropWhile isJsSpace
      let unitStr := strUpper (String.mk rest3)
      let mult : Option Nat :=
        if unitStr == "" then some 1
        else if unitStr == "B" then some 1
        else if unitStr == "KB" then some 1024
        else if unitStr == "MB" then some (1024 * 1024)
        else if unitStr == "GB" then some (1024 * 1024 * 1024)
        else if unitStr == "TB" then some (1024 * 1024 * 1024 * 1024)
        else none
      match mult with
      | none => .error ("Invalid file size format: " ++ sizeStr)
      | some m =>
        .ok ((natOfDigits ip * 10 ^ fp.length + natOfDigits fp) * m / 10 ^ fp.length)

/-- Error message thrown by `fetchImageData` when a size exceeds the
limit. -/
def tooLargeMsg (size : Int) (maxSize : Nat) : String :=
  "File too large: " ++ toString size ++ " bytes (max " ++ toString maxSize ++ " bytes)"

/-- `fetchImageData` from the origin module: reject from the
`Content-Length` header when it is present (truthy) and parses to a
number above the limit, then download the body and re-check the actual
byte length against the limit. `body` is the downloaded byte sequence;
the `.ok` value is the returned `ArrayBuffer`. -/
def fetchImageData (contentLength : Option String) (body : List Nat) (maxSize : Nat) :
    Except String (List Nat) :=
  let headerReject : Option Int :=
    match contentLength with
    | none => none
    | some cl =>
      if cl == "" then none
      else
        match jsParseInt10 cl with
        | none => none
        | some size => if size > (maxSize : Int) then some size else none
  match headerReject with
  | some size => .error (tooLargeMsg size maxSize)
  | none =>
    if body.length > maxSize then .error (tooLargeMsg body.length maxSize)
    else .ok body

/-- Classification result of `detectBlockedResponse`. -/
structure BlockCheck where
  blocked : Bool
  reason : Option String
  deriving Repr, DecidableEq

/-- `detectBlockedResponse` from the origin module (`expectedType` is
always `'image'` at its only call site): block statuses first, then the
content-type heuristics, reading `Content-Length` with
`parseInt(_, 10)` (a missing or non-numeric header fails the
`< 50000` test). -/
def detectBlockedResponse (status : Nat)
    (contentTypeHdr contentLengthHdr : Option String) : BlockCheck :=
  let contentType := strLower (contentTypeHdr.getD "")
  if status == 403 || status == 401 then
    { blocked := true, reason := some ("http_" ++ toString status) }
  else if status == 429 then
    { blocked := true, reason := some "rate_limited" }
  else if strIncludes contentType "text/html" then
    if truthy contentLengthHdr &&
        (match jsParseInt10 ((contentLengthHdr.getD "")) with
         | some n => decide (n < 50000)
         | none => false) then
      { blocked := true, reason := some "html_challenge_page" }
    else
      { blocked := true, reason := some "html_instead_of_image" }
  else if strStartsWith contentType "text/" then
    { blocked := true, reason := some "text_instead_of_image" }
  else if strIncludes contentType "application/json" then
    { blocked := true, reason := some "json_instead_of_image" }
  else if contentType != "" && !(strStartsWith contentType "image/") then
    { blocked := true, reason := some "non_image_content_type" }
  else
    { blocked := false, reason := none }

/-- Decision tree of the block classifier exactly as the specification
sentence prescribes it, written independently of the source: 401 →
`http_401`; 403 → `http_403`; 429 → `rate_limited`; HTML with a
`Content-Length` below 50,000 → `html_challenge_page`; other HTML →
`html_instead_of_image`; other `text/*` → `text_instead_of_image`;
`application/json` → `json_instead_of_image`; any other present
non-`image/*` content type → `non_image_content_type`; everything else
is not blocked. -/
def blockClassifierSpec (status : Nat)
    (contentTypeHdr contentLengthHdr : Option String) : BlockCheck :=
  if status == 401 then { blocked := true, reason := some "http_401" }
  else if status == 403 then { blocked := true, reason := some "http_403" }
  else if status == 429 then { blocked := true, reason := some "rate_limited" }
  else
    let ct := strLower (contentTypeHdr.getD "")
    let lengthBelow :=
      truthy contentLengthHdr &&
        (match jsParseInt10 (contentLengthHdr.getD "") with
         | some n => decide (n < 50000)
         | none => false)
    if strIncludes ct "text/html" then
      if lengthBelow then { blocked := true, reason := some "html_challenge_page" }
      else { blocked := true, reason := some "html_instead_of_image" }
    else if strStartsWith ct "text/" then
      { blocked := true, reason := some "text_instead_of_image" }
    else if strIncludes ct "application/json" then
      { blocked := true, reason := some "json_instead_of_image" }
    else if ct != "" && !(strStartsWith ct "image/") then
      { blocked := true, reason := some "non_image_content_type" }
    else
      { blocked := false, reason := none }

/-! ## URL parsing (`parseUrl` in `src/validation.ts`) -/

/-- The `ParsedUrl` record. -/
structure ParsedUrl where
  domain : String
  path : String
  sourceUrl : String
  cacheKey : String
  forceReprocess : Bool
  viewImage : Bool
  deriving Repr, DecidableEq

/-- JavaScript `pathname.replace(/^\/+/, '')`. -/
def dropLeadingSlashes (l : List Char) : List Char :=
  l.dropWhile fun c => c == '/'

/-- Per-segment percent-encoding of a path:
`path.split('/').map(encodeURIComponent).join('/')`. -/
def encodePath (path : String) : String :=
  String.mk (joinChar '/'
    ((splitOnChar '/' path.data).map fun seg => (encodeURIComponent (String.mk seg)).data))

/-- `parseUrl` from `src/validation.ts` on a request's pathname and its
`force`/`view` query parameters: percent-decode, strip leading slashes,
split on `/`; fewer than two parts or an invalid first part throw; the
result carries `sourceUrl = https://{domain}{encoded path}` and
`cacheKey = {domain}{path}`. `.error` carries the thrown message. -/
def parseUrl (pathname : String) (forceParam viewParam : Option String) :
    Except String ParsedUrl :=
  match decodeURIComponent pathname with
  | none => .error "URI malformed"
  | some decoded =>
    match splitOnChar '/' (dropLeadingSlashes decoded.data) with
    | d :: p :: rest =>
      let domain := String.mk d
      let path := "/" ++ String.mk (joinChar '/' (p :: rest))
      if !isValidDomain domain then .error ("Invalid domain: " ++ domain)
      else
        .ok { domain := domain
              path := path
              sourceUrl := "https://" ++ domain ++ encodePath path
              cacheKey := domain ++ path
              forceReprocess := forceParam == some "true" || forceParam == some "1"
              viewImage := viewParam == some "true" || viewParam == some "1" }
    | _ => .error "Invalid URL format: /domain.com/path/to/image.jpg"

/-! ## Cache entries, responses and the request orchestrator
(`src/cache.ts` and the v1.1.0 worker entry `src/index.ts`) -/

/-- A stored R2 object (`R2ObjectBody`): body bytes, size, etag, upload
time (kept abstract as its `toUTCString` rendering), the HTTP metadata
content type, and the custom metadata written by `storeInCache`. -/
structure CacheEntry where
  body : List Nat
  size : Nat
  etag : String
  uploadedUTC : String
  contentType : Option String
  cachedAt : Option String
  deriving Repr, DecidableEq

/-- Body of a modelled `Response`. Bodies produced by the excluded
collaborators (HTML viewer, stats endpoint) are kept abstract. -/
inductive RespBody where
  | empty
  | bytes (data : List Nat)
  | text (s : String)
  | viewer
  | stats
  deriving Repr, DecidableEq

/-- A modelled HTTP `Response`. -/
structure Resp where
  status : Nat
  headers : List (String × String)
  body : RespBody
  deriving Repr, DecidableEq

/-- Header lookup on a modelled response. -/
def Resp.header (r : Resp) (name : String) : Option String :=
  (r.headers.find? fun p => p.1 == name).map Prod.snd

/-- `getCORSHeaders` from `src/utils.ts`. -/
def corsHeaders : List (String × String) :=
  [("Access-Control-Allow-Origin", "*"),
   ("Access-Control-Allow-Methods", "GET, HEAD, DELETE, OPTIONS"),
   ("Access-Control-Allow-Headers", "Content-Type"),
   ("Access-Control-Max-Age", "86400")]

/-- JSON body written by `errorResponse`
(`JSON.stringify({error, status})`). -/
def errorJson (message : String) (status : Nat) : String :=
  "\x7b\"error\":\"" ++ message ++ "\",\"status\":" ++ toString status ++ "\x7d"

/-- `errorResponse` from `src/utils.ts`. -/
def errorResponse (message : String) (status : Nat) : Resp :=
  { status := status
    headers := ("Content-Type", "application/json") :: corsHeaders
    body := .text (errorJson message status) }

/-- `handleConditionalRequest` from `src/cache.ts`: a truthy
`If-None-Match` equal to the stored etag yields a body-less 304. -/
def handleConditionalRequest (ifNoneMatch : Option String) (etag : String) :
    Option Resp :=
  match ifNoneMatch with
  | none => none
  | some inm =>
    if inm != "" && inm == etag then
      some { status := 304
             headers := ("ETag", etag) ::
               ("Cache-Control", "public, max-age=31536000, immutable") :: corsHeaders
             body := .empty }
    else none

/-- `handleHeadRequest` from `src/cache.ts`. -/
def handleHeadRequest (cached : Option CacheEntry) : Resp :=
  match cached with
  | some e =>
    { status := 200
      headers :=
        [("Content-Type", e.contentType.getD "image/jpeg"),
         ("Content-Length", toString e.size),
         ("ETag", e.etag),
         ("Last-Modified", e.uploadedUTC),
         ("Cache-Control", "public, max-age=31536000, immutable"),
         ("X-ImgPro-Status", "cached"),
         ("X-ImgPro-Cached-At", e.cachedAt.getD "")] ++ corsHeaders
      body := .empty }
  | none => { status := 404, headers := corsHeaders, body := .empty }

/-- Origin response as seen by the orchestrator. -/
structure OriginResp where
  status : Nat
  statusText : String
  contentType : Option String
  contentLength : Option String
  body : List Nat
  deriving Repr, DecidableEq

/-- Request-and-environment context of one worker invocation. All
external effects the worker awaits are presented as data: the cache
lookup result for each key, the outcome of `fetchFromOrigin` (`.error`
is a thrown fetch/timeout/redirect error), and the response of the
excluded `/stats` collaborator. -/
structure WorkerCtx where
  method : String
  pathname : String
  forceParam : Option String
  viewParam : Option String
  ifNoneMatch : Option String
  allowedOrigins : Option String
  maxFileSize : Option String
  cache : String → Option CacheEntry
  originResult : Except String OriginResp
  statsResp : Resp
  nowIso : String

/-- JavaScript `a || d` on a nullable environment string: `null`,
`undefined` and the empty string fall back to the default. -/
def jsOrDefault (o : Option String) (d : String) : String :=
  match o with
  | none => d
  | some s => if s == "" then d else s

/-- Response of the excluded HTML viewer collaborator
(`createHtmlViewer` in `viewer.ts`). Modelled from the spec: the debug
viewer is out of scope, so only the fact that the pipeline delegates to
it is represented; none of the verified claims touches `view=true`. -/
def viewerResp : Resp :=
  { status := 200, headers := [], body := .viewer }

/-- Body of the `/health` endpoint's JSON. -/
def healthJson (nowIso : String) : String :=
  "\x7b\"status\":\"healthy\",\"version\":\"1.1.0\",\"timestamp\":\"" ++ nowIso ++ "\"\x7d"

/-- Body of the DELETE success JSON. -/
def deleteJson (cacheKey : String) : String :=
  "\x7b\"success\":true,\"message\":\"Image deleted from cache\",\"cacheKey\":\"" ++
    cacheKey ++ "\"\x7d"

/-- Cache-miss (or forced reprocess) arm of the GET pipeline: origin
fetch, status gate (404 passes through, other non-2xx become 503),
content-type validation (415), size-bounded read (413), store, serve.
A `.error` result is an exception that reaches the worker's top-level
`catch`. -/
def workerMiss (p : ParsedUrl) (ctx : WorkerCtx) : Except String Resp :=
  match ctx.originResult with
  | .error e => .error e
  | .ok resp =>
    if !(200 ≤ resp.status && resp.status ≤ 299) then
      if resp.status == 404 then
        .ok (errorResponse ("Image not found: " ++ p.sourceUrl) 404)
      else
        .ok (errorResponse
          ("Origin error " ++ toString resp.status ++ ": " ++ resp.statusText) 503)
    else
      let contentType := resp.contentType.getD ""
      if !isImageContentType contentType then
        .ok (errorResponse ("Not an image: " ++ contentType) 415)
      else
        match parseFileSize (jsOrDefault ctx.maxFileSize "50MB") with
        | .error e => .error e
        | .ok maxSize =>
          match fetchImageData resp.contentLength resp.body maxSize with
          | .error msg => .ok (errorResponse msg 413)
          | .ok imageData =>
            if p.viewImage then .ok viewerResp
            else
              .ok { status := 200
                    headers :=
                      [("Content-Type", contentType),
                       ("Content-Length", toString imageData.length),
                       ("Cache-Control", "public, max-age=31536000, immutable"),
                       ("X-ImgPro-Status", "miss")] ++ corsHeaders
                    body := .bytes imageData }

/-- GET arm of the orchestrator: origin allow-list gate, cache lookup
(skipped under `force`), conditional request, viewer, cache-hit
response, else the miss arm. -/
def workerGet (p : ParsedUrl) (ctx : WorkerCtx) : Except String Resp :=
  if !isAllowedOrigin p.sourceUrl (jsOrDefault ctx.allowedOrigins "*") then
    .ok (errorResponse "Origin not allowed" 403)
  else if !p.forceReprocess then
    match ctx.cache p.cacheKey with
    | some cached =>
      match handleConditionalRequest ctx.ifNoneMatch cached.etag with
      | some r => .ok r
      | none =>
        if p.viewImage then .ok viewerResp
        else
          .ok { status := 200
                headers :=
                  [("Content-Type", cached.contentType.getD "image/jpeg"),
                   ("Content-Length", toString cached.size),
                   ("Cache-Control", "public, max-age=31536000, immutable"),
                   ("ETag", cached.etag),
                   ("Last-Modified", cached.uploadedUTC),
                   ("X-ImgPro-Status", "hit"),
                   ("X-ImgPro-Cached-At", cached.cachedAt.getD "")] ++ corsHeaders
                body := .bytes cached.body }
    | none => workerMiss p ctx
  else workerMiss p ctx

/-- Body of the worker's `try` block: parse, then dispatch on method
(DELETE invalidation, HEAD metadata, 405 for other non-GET, GET
pipeline). -/
def workerTry (ctx : WorkerCtx) : Except String Resp :=
  match parseUrl ctx.pathname ctx.forceParam ctx.viewParam with
  | .error e => .error e
  | .ok parsed =>
    if ctx.method == "DELETE" then
      match ctx.cache parsed.cacheKey with
      | none => .ok (errorResponse "Image not found in cache" 404)
      | some _ =>
        .ok { status := 200
              headers := ("Content-Type", "application/json") :: corsHeaders
              body := .text (deleteJson parsed.cacheKey) }
    else if ctx.method == "HEAD" then
      .ok (handleHeadRequest (ctx.cache parsed.cacheKey))
    else if ctx.method != "GET" then
      .ok (errorResponse "Method not allowed" 405)
    else workerGet parsed ctx

/-- The worker's `fetch` entry point (v1.1.0 `src/index.ts`): CORS
preflight, `/health`–`/ping`, `/stats`, then the `try`/`catch` whose
`catch` maps any thrown error to a 500 `errorResponse` carrying the
error's message. -/
def workerFetch (ctx : WorkerCtx) : Resp :=
  if ctx.method == "OPTIONS" then
    { status := 204, headers := corsHeaders, body := .empty }
  else if ctx.pathname == "/health" || ctx.pathname == "/ping" then
    { status := 200
      headers := ("Content-Type", "application/json") :: corsHeaders
      body := .text (healthJson ctx.nowIso) }
  else if ctx.pathname == "/stats" then ctx.statsResp
  else
    match workerTry ctx with
    | .ok r => r
    | .error msg => errorResponse msg 500

/-! ## Theorems -/

/-- Concrete request context used to exhibit the parse-failure path:
a GET whose path has a single segment. -/
def c4Ctx : WorkerCtx :=
  { method := "GET", pathname := "/example.com", forceParam := none,
    viewParam := none, ifNoneMatch := none, allowedOrigins := none,
    maxFileSize := none, cache := fun _ => none,
    originResult := Except.error "unreached", statsResp := viewerResp,
    nowIso := "" }

/-- Concrete stored entry used to exhibit the cache-hit path. -/
def c6Entry : CacheEntry :=
  { body := [1, 2, 3], size := 3, etag := "E1", uploadedUTC := "Mon, 01 Jan 2024 00:00:00 GMT",
    contentType := some "image/png", cachedAt := some "2024-01-01T00:00:00.000Z" }

/-- Concrete request context used to exhibit the cache-hit path. -/
def c6Ctx : WorkerCtx :=
  { method := "GET", pathname := "/example.com/a.jpg", forceParam := none,
    viewParam := none, ifNoneMatch := none, allowedOrigins := none,
    maxFileSize := none,
    cache := fun k => if k == "example.com/a.jpg" then some c6Entry else none,
    originResult := Except.error "unreached", statsResp := viewerResp,
    nowIso := "" }

/-! ### Helper lemmas about the string primitives -/

theorem pctTokens_no_pct (l : List Char) (h : '%' ∉ l) :
    pctTokens l = some (l.map PctTok.raw) := by
  induction l with
  | nil => rfl
  | cons c cs ih =>
    have hc : (c == '%') = false := by
      simp only [beq_eq_false_iff_ne, ne_eq]
      intro he
      exact h (he ▸ List.mem_cons_self c cs)
    have hcs : '%' ∉ cs := fun hm => h (List.mem_cons_of_mem c hm)
    have ih' := ih hcs
    rcases cs with _ | ⟨c1, cs1⟩
    · simp [pctTokens, hc]
    · have hc1 : ¬ (c1 = '%') := by
        intro he
        exact hcs (he ▸ List.mem_cons_self c1 cs1)
      rcases cs1 with _ | ⟨c2, cs2⟩
      · simp [pctTokens, hc, hc1]
      · simp [pctTokens, hc, ih']

theorem utf8Assemble_raws (l : List Char) :
    utf8Assemble (l.map PctTok.raw) = some l := by
  induction l with
  | nil => rfl
  | cons c cs ih =>
    have h : utf8Assemble (.raw c :: cs.map PctTok.raw) =
        (utf8Assemble (cs.map PctTok.raw)).bind fun l2 => some (c :: l2) := rfl
    simp [h, ih]

theorem decodeURIComponent_no_pct (s : String) (h : '%' ∉ s.data) :
    decodeURIComponent s = some s := by
  simp [decodeURIComponent, pctTokens_no_pct s.data h, utf8Assemble_raws]

theorem splitOnChar_ne_nil (sep : Char) (l : List Char) :
    splitOnChar sep l ≠ [] := by
  cases l with
  | nil => simp [splitOnChar]
  | cons c cs =>
    by_cases hc : (c == sep) = true
    · simp [splitOnChar, hc]
    · simp only [splitOnChar, Bool.not_eq_true] at hc ⊢
      rw [hc]
      cases splitOnChar sep cs <;> simp

theorem joinChar_splitOnChar (sep : Char) (l : List Char) :
    joinChar sep (splitOnChar sep l) = l := by
  induction l with
  | nil => rfl
  | cons c cs ih =>
    by_cases hc : (c == sep) = true
    · have hceq : c = sep := by simpa using hc
      cases hq : splitOnChar sep cs with
      | nil => exact absurd hq (splitOnChar_ne_nil sep cs)
      | cons q qs =>
        rw [hq] at ih
        simp [splitOnChar, hc, hq, joinChar, ih, hceq]
    · have hc' : (c == sep) = false := by simpa using hc
      cases hq : splitOnChar sep cs with
      | nil => exact absurd hq (splitOnChar_ne_nil sep cs)
      | cons q qs =>
        rw [hq] at ih
        cases qs with
        | nil => simp [splitOnChar, hc', hq, joinChar] at ih ⊢; rw [ih]
        | cons q2 qs2 => simp [splitOnChar, hc', hq, joinChar] at ih ⊢; rw [ih]

theorem splitOnChar_append_sep (sep : Char) (a b : List Char) (h : sep ∉ a) :
    splitOnChar sep (a ++ sep :: b) = a :: splitOnChar sep b := by
  induction a with
  | nil => simp [splitOnChar]
  | cons c cs ih =>
    have hc : (c == sep) = false := by
      simp only [beq_eq_false_iff_ne, ne_eq]
      intro he
      exact h (he ▸ List.mem_cons_self c cs)
    have hcs : sep ∉ cs := fun hm => h (List.mem_cons_of_mem c hm)
    simp only [List.cons_append, splitOnChar, hc, Bool.false_eq_true, if_false]
    rw [List.append_eq, ih hcs]

/-- C1: in a flush whose external batched write succeeds, the live
counters afterwards equal their value at that moment (snapshot plus the
events that interleaved with the external write) minus exactly the
snapshotted amounts — never a reset to zero, so interleaved events
remain counted; the decremented counters are persisted and the
consecutive-failure counter is reset to 0. -/
theorem alarm_success_subtracts_exact_snapshot
    (mem : Mem) (store : Store) (dHits dMisses : Nat) (alarmOk : Bool)
    (hactive : mem.requests ≠ 0) :
    let r := alarm mem store true dHits dMisses true true alarmOk
    (r.mem.requests = (mem.requests + (dHits + dMisses)) - mem.requests ∧
     r.mem.cacheHits = (mem.cacheHits + dHits) - mem.cacheHits ∧
     r.mem.cacheMisses = (mem.cacheMisses + dMisses) - mem.cacheMisses) ∧
    (r.mem.requests = dHits + dMisses ∧
     r.mem.cacheHits = dHits ∧
     r.mem.cacheMisses = dMisses) ∧
    r.mem.d1Failures = 0 ∧
    (r.store.requests = r.mem.requests ∧
     r.store.cacheHits = r.mem.cacheHits ∧
     r.store.cacheMisses = r.mem.cacheMisses ∧
     r.store.d1Failures = 0) := by
  have h0 : (mem.requests == 0) = false := by
    simpa using hactive
  simp [alarm, h0]

/-- Closed witness for the success-flush theorem at a concrete state
with events interleaving during the write. -/
theorem alarm_success_subtracts_exact_snapshot_witness :
    (3 : Int) ≠ 0 ∧
    (let r := alarm ⟨7, "example.com", 3, 2, 1, 4, true⟩
        ⟨7, "example.com", 3, 2, 1, 4, true⟩ true 2 1 true true true
     (r.mem.requests = ((3 : Int) + (2 + 1)) - 3 ∧
      r.mem.cacheHits = ((2 : Int) + 2) - 2 ∧
      r.mem.cacheMisses = ((1 : Int) + 1) - 1) ∧
     (r.mem.requests = (2 + 1 : Nat) ∧
      r.mem.cacheHits = (2 : Nat) ∧
      r.mem.cacheMisses = (1 : Nat)) ∧
     r.mem.d1Failures = 0 ∧
     (r.store.requests = r.mem.requests ∧
      r.store.cacheHits = r.mem.cacheHits ∧
      r.store.cacheMisses = r.mem.cacheMisses ∧
      r.store.d1Failures = 0)) :=
  ⟨by decide,
   alarm_success_subtracts_exact_snapshot
     ⟨7, "example.com", 3, 2, 1, 4, true⟩
     ⟨7, "example.com", 3, 2, 1, 4, true⟩ 2 1 true (by decide)⟩

/-- C2: in a flush whose external write fails, the flush itself leaves
the live counters exactly unchanged (they still carry the snapshot plus
whatever interleaved, so the same amount is retried next period), the
consecutive-failure counter is incremented by one and persisted, and
the alert fires exactly when that counter has reached the threshold 5. -/
theorem alarm_failure_preserves_counters
    (mem : Mem) (store : Store) (dHits dMisses : Nat) (alarmOk : Bool)
    (hactive : mem.requests ≠ 0) :
    let r := alarm mem store true dHits dMisses false true alarmOk
    (r.mem.requests = mem.requests + (dHits + dMisses) ∧
     r.mem.cacheHits = mem.cacheHits + dHits ∧
     r.mem.cacheMisses = mem.cacheMisses + dMisses) ∧
    r.mem.d1Failures = mem.d1Failures + 1 ∧
    r.store.d1Failures = mem.d1Failures + 1 ∧
    (r.store.requests = store.requests ∧
     r.store.cacheHits = store.cacheHits ∧
     r.store.cacheMisses = store.cacheMisses) ∧
    (r.alerted = true ↔ mem.d1Failures + 1 ≥ 5) := by
  have h0 : (mem.requests == 0) = false := by
    simpa using hactive
  simp [alarm, h0]

/-- Closed witness for the failed-flush theorem: the fifth consecutive
failure both preserves the counters and raises the alert. -/
theorem alarm_failure_preserves_counters_witness :
    (3 : Int) ≠ 0 ∧
    (let r := alarm ⟨7, "example.com", 3, 2, 1, 4, true⟩
        ⟨7, "example.com", 9, 9, 9, 4, true⟩ true 2 1 false true true
     (r.mem.requests = (3 : Int) + (2 + 1) ∧
      r.mem.cacheHits = (2 : Int) + 2 ∧
      r.mem.cacheMisses = (1 : Int) + 1) ∧
     r.mem.d1Failures = (4 : Int) + 1 ∧
     r.store.d1Failures = (4 : Int) + 1 ∧
     (r.store.requests = (9 : Int) ∧
      r.store.cacheHits = (9 : Int) ∧
      r.store.cacheMisses = (9 : Int)) ∧
     (r.alerted = true ↔ (4 : Int) + 1 ≥ 5)) :=
  ⟨by decide,
   alarm_failure_preserves_counters
     ⟨7, "example.com", 3, 2, 1, 4, true⟩
     ⟨7, "example.com", 9, 9, 9, 4, true⟩ 2 1 true (by decide)⟩

/-- C9 counterexample: the invariant exactly as claimed — with the sum
equation conditional on initialization — is not preserved by the
record-event handler. The uninitialized state with `requests = 5`,
`cacheHits = cacheMisses = 0` satisfies the claimed invariant
vacuously, yet recording one cache-hit event initializes the instance
and leaves `requests = 6 ≠ 1 = cacheHits + cacheMisses`. -/
theorem usage_invariant_claim_counterexample :
    memInvClaim ⟨0, "", 5, 0, 0, 0, false⟩ ∧
    ¬ memInvClaim
      (recordEvent ⟨0, "", 5, 0, 0, 0, false⟩ ⟨0, "", 0, 0, 0, 0, false⟩
        ⟨7, "example.com", true⟩ true).1 := by
  constructor
  · exact ⟨by decide, by decide, by decide, by decide, fun h => by simp at h⟩
  · intro h
    have := h.2.2.2.2 (by decide)
    simp [recordEvent] at this

/-- C9 amended: both tracker operations preserve the invariant in its
inductive form — all counters non-negative and
`requests = cacheHits + cacheMisses` unconditionally — for the
in-memory state and the persisted state alike. -/
theorem usage_invariant_preserved
    (mem : Mem) (store : Store) (hm : memInv mem) (hs : storeInv store) :
    (∀ m putOk, memInv (recordEvent mem store m putOk).1 ∧
      storeInv (recordEvent mem store m putOk).2) ∧
    (∀ configured dHits dMisses d1Ok putOk alarmOk,
      memInv (alarm mem store configured dHits dMisses d1Ok putOk alarmOk).mem ∧
      storeInv (alarm mem store configured dHits dMisses d1Ok putOk alarmOk).store) := by
  obtain ⟨hm1, hm2, hm3, hm4, hm5⟩ := hm
  obtain ⟨hs1, hs2, hs3, hs4, hs5⟩ := hs
  constructor
  · intro m putOk
    constructor
    · unfold memInv recordEvent
      rcases m.cacheHit with _ | _ <;> rcases putOk with _ | _ <;>
        rcases hb : mem.initialized with _ | _ <;>
        simp [hb] <;> omega
    · unfold storeInv recordEvent
      rcases m.cacheHit with _ | _ <;> rcases putOk with _ | _ <;>
        rcases hb : mem.initialized with _ | _ <;>
        simp [hb] <;> omega
  · intro configured dHits dMisses d1Ok putOk alarmOk
    constructor
    · unfold memInv alarm Store.cleared
      rcases configured with _ | _ <;> rcases d1Ok with _ | _ <;>
        rcases putOk with _ | _ <;>
        rcases hz : (mem.requests == 0) with _ | _ <;>
        simp [hz] <;> omega
    · unfold storeInv alarm Store.cleared
      rcases configured with _ | _ <;> rcases d1Ok with _ | _ <;>
        rcases putOk with _ | _ <;>
        rcases hz : (mem.requests == 0) with _ | _ <;>
        simp [hz] <;> omega

/-- Closed witness for the amended invariant-preservation theorem. -/
theorem usage_invariant_preserved_witness :
    memInv ⟨7, "example.com", 3, 2, 1, 0, true⟩ ∧
    storeInv ⟨7, "example.com", 3, 2, 1, 0, true⟩ ∧
    memInv (recordEvent ⟨7, "example.com", 3, 2, 1, 0, true⟩
      ⟨7, "example.com", 3, 2, 1, 0, true⟩ ⟨7, "example.com", true⟩ true).1 :=
  ⟨by unfold memInv; decide, by unfold storeInv; decide,
   ((usage_invariant_preserved
      ⟨7, "example.com", 3, 2, 1, 0, true⟩
      ⟨7, "example.com", 3, 2, 1, 0, true⟩
      (by unfold memInv; decide) (by unfold storeInv; decide)).1
        ⟨7, "example.com", true⟩ true).1⟩

/-- C10: with a configured sink, every run of the flush handler calls
`setAlarm` for the next period — whatever the external write, the
counter persistence or the idle check did — and the alarm is scheduled
exactly when that call succeeds; the unconfigured-sink branch is the
sole exception and leaves the timer cancelled. -/
theorem alarm_always_reschedules
    (mem : Mem) (store : Store) (dHits dMisses : Nat) (d1Ok putOk alarmOk : Bool) :
    ((alarm mem store true dHits dMisses d1Ok putOk alarmOk).rescheduleAttempted = true ∧
     (alarm mem store true dHits dMisses d1Ok putOk alarmOk).store.alarmSet = alarmOk) ∧
    ((alarm mem store false dHits dMisses d1Ok putOk alarmOk).rescheduleAttempted = false ∧
     (alarm mem store false dHits dMisses d1Ok putOk alarmOk).store.alarmSet = false) := by
  unfold alarm Store.cleared
  rcases d1Ok with _ | _ <;> rcases putOk with _ | _ <;>
    rcases hz : (mem.requests == 0) with _ | _ <;> simp [hz]

/-- C3 counterexample: a `*.example.com` entry is matched by
`endsWith "example.com"` (the `*.` is stripped and the bare suffix
compared), so the hostname `notexample.com` IS allowed, contradicting
the claim that it is not. -/
theorem isAllowedOrigin_counterexample :
    isAllowedOrigin "https://notexample.com/a.jpg" "*.example.com" = true := by
  decide

/-- C3 amended: `*` allows every source URL; a `*.example.com` entry
matches any hostname that ends with the bare suffix `example.com` — so
it allows `img.example.com` and also `notexample.com`, though not
`example.com.evil.com` — and a non-wildcard entry allows only the
hostname exactly equal to it, case-insensitively, with entries
comma-separated and trimmed. -/
theorem isAllowedOrigin_amended :
    (∀ sourceUrl, isAllowedOrigin sourceUrl "*" = true) ∧
    isAllowedOrigin "https://img.example.com/a.jpg" "*.example.com" = true ∧
    isAllowedOrigin "https://notexample.com/a.jpg" "*.example.com" = true ∧
    isAllowedOrigin "https://example.com.evil.com/a.jpg" "*.example.com" = false ∧
    isAllowedOrigin "https://example.com/a.jpg" "example.com" = true ∧
    isAllowedOrigin "https://sub.example.com/a.jpg" "example.com" = false ∧
    isAllowedOrigin "https://notexample.com/a.jpg" "example.com" = false ∧
    isAllowedOrigin "https://IMG.Example.com/a.jpg" " *.EXAMPLE.com , foo.com" = true ∧
    isAllowedOrigin "https://Example.COM/a.jpg" "EXAMPLE.com" = true := by
  refine ⟨fun sourceUrl => rfl, ?_, ?_, ?_, ?_, ?_, ?_, ?_, ?_⟩ <;> decide

/-- C5: `fetchImageData` returns the downloaded body exactly when the
actual byte length is within the limit and the `Content-Length` header,
whenever present and parsing to a number, is within the limit too; and
whenever the header did not itself reject (absent, empty, non-numeric,
or understating the limit), a body exceeding the limit is still
rejected after download with the `File too large` error. -/
theorem fetchImageData_size_guard
    (contentLength : Option String) (body : List Nat) (maxSize : Nat) :
    (fetchImageData contentLength body maxSize = .ok body ↔
      (body.length ≤ maxSize ∧
        ∀ cl, contentLength = some cl → cl ≠ "" →
          ∀ n, jsParseInt10 cl = some n → n ≤ (maxSize : Int))) ∧
    ((∀ cl, contentLength = some cl → cl ≠ "" →
        ∀ n, jsParseInt10 cl = some n → n ≤ (maxSize : Int)) →
      body.length > maxSize →
      fetchImageData contentLength body maxSize = .error (tooLargeMsg body.length maxSize)) := by
  unfold fetchImageData
  cases contentLength with
  | none =>
    constructor
    · by_cases h : body.length > maxSize <;> simp [h] <;> omega
    · intro _ h
      simp [h]
  | some cl =>
    by_cases he : cl = ""
    · subst he
      constructor
      · by_cases h : body.length > maxSize <;> simp [h] <;> omega
      · intro _ h
        simp [h]
    · have hb : (cl == "") = false := by simpa using he
      cases hp : jsParseInt10 cl with
      | none =>
        constructor
        · by_cases h : body.length > maxSize <;> simp [hb, hp, h, he] <;> omega
        · intro _ h
          simp [hb, hp, h]
      | some n =>
        by_cases hn : n > (maxSize : Int)
        · constructor
          · simp only [hb, hp, Bool.false_eq_true, if_false]
            rw [if_pos hn]
            simp only [reduceCtorEq, false_iff, not_and]
            intro _ hall
            have := hall cl rfl he n hp
            omega
          · intro hall
            have := hall cl rfl he n hp
            omega
        · constructor
          · simp only [hb, hp, Bool.false_eq_true, if_false]
            rw [if_neg hn]
            by_cases h : body.length > maxSize
            · rw [if_pos h]
              simp only [reduceCtorEq, false_iff, not_and]
              intro hlen
              omega
            · rw [if_neg h]
              constructor
              · intro _
                refine ⟨by omega, fun cl2 hcl2 _ n2 hn2 => ?_⟩
                cases hcl2
                rw [hp] at hn2
                cases hn2
                omega
              · intro _
                rfl
          · intro _ h
            simp only [hb, hp, Bool.false_eq_true, if_false]
            rw [if_neg hn]
            simp [h]

/-- Closed witness for the size-guard theorem: an understating header
(`Content-Length: 10`) does not save a 60-byte body from rejection
under a 50-byte limit. -/
theorem fetchImageData_size_guard_witness :
    (∀ cl, (some "10" : Option String) = some cl → cl ≠ "" →
        ∀ n, jsParseInt10 cl = some n → n ≤ ((50 : Nat) : Int)) ∧
    (List.replicate 60 0).length > 50 ∧
    fetchImageData (some "10") (List.replicate 60 0) 50 =
      .error (tooLargeMsg (List.replicate 60 0).length 50) := by
  have hp : ∀ cl, (some "10" : Option String) = some cl → cl ≠ "" →
      ∀ n, jsParseInt10 cl = some n → n ≤ ((50 : Nat) : Int) := by
    intro cl hcl _ n hn
    cases hcl
    rw [show jsParseInt10 "10" = some 10 from by decide] at hn
    cases hn
    decide
  exact ⟨hp, by decide,
    (fetchImageData_size_guard (some "10") (List.replicate 60 0) 50).2 hp (by decide)⟩

/-- C7: the block/challenge classifier computes exactly the decision
tree the specification prescribes, for every status and header pair. -/
theorem detectBlockedResponse_matches_spec
    (status : Nat) (contentTypeHdr contentLengthHdr : Option String) :
    detectBlockedResponse status contentTypeHdr contentLengthHdr =
      blockClassifierSpec status contentTypeHdr contentLengthHdr := by
  unfold detectBlockedResponse blockClassifierSpec
  by_cases h1 : status = 401
  · subst h1; rfl
  · by_cases h2 : status = 403
    · subst h2; rfl
    · by_cases h3 : status = 429
      · subst h3; rfl
      · have b1 : (status == 401) = false := by simpa using h1
        have b2 : (status == 403) = false := by simpa using h2
        have b3 : (status == 429) = false := by simpa using h3
        simp only [b1, b2, b3, Bool.or_false, Bool.false_or, Bool.false_eq_true, if_false]

/-- C4 counterexample: a GET request whose path has fewer than two
segments is answered with status 500, not a 4xx status — `parseUrl`'s
`MalformedRequest` throw is only caught by the worker's top-level
`catch`, which maps every error to 500. -/
theorem worker_parse_error_counterexample :
    (workerFetch c4Ctx).status = 500 ∧
    ¬(400 ≤ (workerFetch c4Ctx).status ∧ (workerFetch c4Ctx).status < 500) := by
  constructor
  · rfl
  · decide

/-- C4 amended: a request whose path fails parsing (fewer than two
segments, or an invalid first segment) is answered by the top-level
catch with status 500 and the thrown message in the JSON error body. -/
theorem worker_parse_error_maps_to_500 (ctx : WorkerCtx) (msg : String)
    (hm : ctx.method ≠ "OPTIONS")
    (h1 : ctx.pathname ≠ "/health") (h2 : ctx.pathname ≠ "/ping")
    (h3 : ctx.pathname ≠ "/stats")
    (hparse : parseUrl ctx.pathname ctx.forceParam ctx.viewParam = .error msg) :
    workerFetch ctx = errorResponse msg 500 := by
  have b0 : (ctx.method == "OPTIONS") = false := by simpa using hm
  have b1 : (ctx.pathname == "/health") = false := by simpa using h1
  have b2 : (ctx.pathname == "/ping") = false := by simpa using h2
  have b3 : (ctx.pathname == "/stats") = false := by simpa using h3
  simp [workerFetch, workerTry, b0, b1, b2, b3, hparse]

/-- Closed witness for the parse-failure theorem: the malformed-path
request and the invalid-domain request both land on 500. -/
theorem worker_parse_error_maps_to_500_witness :
    c4Ctx.method ≠ "OPTIONS" ∧ c4Ctx.pathname ≠ "/health" ∧
    c4Ctx.pathname ≠ "/ping" ∧ c4Ctx.pathname ≠ "/stats" ∧
    parseUrl c4Ctx.pathname c4Ctx.forceParam c4Ctx.viewParam =
      .error "Invalid URL format: /domain.com/path/to/image.jpg" ∧
    workerFetch c4Ctx =
      errorResponse "Invalid URL format: /domain.com/path/to/image.jpg" 500 :=
  ⟨by decide, by decide, by decide, by decide, rfl,
   worker_parse_error_maps_to_500 c4Ctx _
     (by decide) (by decide) (by decide) (by decide) rfl⟩

/-- C6: a GET request whose cache key has a stored entry — with the
force and view flags unset and no `If-None-Match` equal to the stored
etag — is answered 200 with the stored bytes, the stored etag, the
stored metadata content type, the immutable cache-control header, and
the `hit` status indicator. -/
theorem worker_cache_hit_serves_stored_entry
    (ctx : WorkerCtx) (p : ParsedUrl) (e : CacheEntry) (ct : String)
    (hm : ctx.method = "GET")
    (h1 : ctx.pathname ≠ "/health") (h2 : ctx.pathname ≠ "/ping")
    (h3 : ctx.pathname ≠ "/stats")
    (hparse : parseUrl ctx.pathname ctx.forceParam ctx.viewParam = .ok p)
    (hforce : p.forceReprocess = false) (hview : p.viewImage = false)
    (hallow : isAllowedOrigin p.sourceUrl (jsOrDefault ctx.allowedOrigins "*") = true)
    (hcache : ctx.cache p.cacheKey = some e)
    (hct : e.contentType = some ct)
    (hinm : ctx.ifNoneMatch ≠ some e.etag) :
    (workerFetch ctx).status = 200 ∧
    (workerFetch ctx).body = .bytes e.body ∧
    (workerFetch ctx).header "ETag" = some e.etag ∧
    (workerFetch ctx).header "Content-Type" = some ct ∧
    (workerFetch ctx).header "Cache-Control" =
      some "public, max-age=31536000, immutable" ∧
    (workerFetch ctx).header "X-ImgPro-Status" = some "hit" := by
  have hcond : handleConditionalRequest ctx.ifNoneMatch e.etag = none := by
    unfold handleConditionalRequest
    cases hi : ctx.ifNoneMatch with
    | none => rfl
    | some inm =>
      have hne : (inm == e.etag) = false := by
        simp only [beq_eq_false_iff_ne, ne_eq]
        intro he
        exact hinm (by rw [hi, he])
      simp [hne]
  have b0 : (ctx.method == "OPTIONS") = false := by simp [hm]
  have bg : (ctx.method == "DELETE") = false := by simp [hm]
  have bh : (ctx.method == "HEAD") = false := by simp [hm]
  have bg2 : (ctx.method != "GET") = false := by simp [hm]
  have b1 : (ctx.pathname == "/health") = false := by simpa using h1
  have b2 : (ctx.pathname == "/ping") = false := by simpa using h2
  have b3 : (ctx.pathname == "/stats") = false := by simpa using h3
  simp [workerFetch, workerTry, workerGet, b0, bg, bh, bg2, b1, b2, b3,
    hparse, hforce, hview, hallow, hcache, hcond, hct, Resp.header]

/-- Closed witness for the cache-hit theorem at a concrete context and
stored entry. -/
theorem worker_cache_hit_serves_stored_entry_witness :
    (∃ p, parseUrl c6Ctx.pathname c6Ctx.forceParam c6Ctx.viewParam = .ok p) ∧
    (workerFetch c6Ctx).status = 200 ∧
    (workerFetch c6Ctx).body = .bytes c6Entry.body ∧
    (workerFetch c6Ctx).header "ETag" = some c6Entry.etag ∧
    (workerFetch c6Ctx).header "X-ImgPro-Status" = some "hit" := by
  refine ⟨⟨_, rfl⟩, ?_⟩
  have h := worker_cache_hit_serves_stored_entry c6Ctx
    { domain := "example.com", path := "/a.jpg",
      sourceUrl := "https://example.com/a.jpg", cacheKey := "example.com/a.jpg",
      forceReprocess := false, viewImage := false }
    c6Entry "image/png"
    rfl (by decide) (by decide) (by decide) rfl rfl rfl rfl rfl rfl (by decide)
  exact ⟨h.1, h.2.1, h.2.2.1, h.2.2.2.2.2⟩

/-- C8: for every well-formed pair `(domain, path)` — a valid domain
containing no slash or percent sign, and a path `/rest` free of percent
signs — parsing the request path `/{domain}/{rest}` yields back exactly
the same domain and path, with `cacheKey = domain ++ path` and
`sourceUrl = "https://" ++ domain ++` the per-segment percent-encoded
path. -/
theorem parseUrl_roundtrip (domain rest : String) (f v : Option String)
    (hd : isValidDomain domain = true)
    (hslash : '/' ∉ domain.data)
    (hpct1 : '%' ∉ domain.data) (hpct2 : '%' ∉ rest.data) :
    parseUrl ("/" ++ domain ++ "/" ++ rest) f v =
      .ok { domain := domain
            path := "/" ++ rest
            sourceUrl := "https://" ++ domain ++ encodePath ("/" ++ rest)
            cacheKey := domain ++ ("/" ++ rest)
            forceReprocess := f == some "true" || f == some "1"
            viewImage := v == some "true" || v == some "1" } := by
  have hmk : String.mk domain.data = domain := rfl
  have hmk2 : String.mk rest.data = rest := rfl
  have hne : domain ≠ "" := by
    intro h
    rw [h] at hd
    exact absurd hd (by decide)
  obtain ⟨c0, t, hdom⟩ : ∃ c0 t, domain.data = c0 :: t := by
    cases hdm : domain.data with
    | nil =>
      exact absurd (by rw [← hmk, hdm] : domain = "") hne
    | cons a b => exact ⟨a, b, rfl⟩
  have hc0 : (c0 == '/') = false := by
    simp only [beq_eq_false_iff_ne, ne_eq]
    intro he
    exact hslash (by rw [hdom, he]; exact List.mem_cons_self _ _)
  have hdata : ("/" ++ domain ++ "/" ++ rest).data
      = '/' :: (domain.data ++ '/' :: rest.data) := by
    simp [String.data_append]
  have hnopct : '%' ∉ ("/" ++ domain ++ "/" ++ rest).data := by
    rw [hdata]
    simp only [List.mem_cons, List.mem_append, not_or]
    exact ⟨by decide, hpct1, by decide, hpct2⟩
  have hdecode := decodeURIComponent_no_pct _ hnopct
  have hdrop : dropLeadingSlashes (("/" ++ domain ++ "/" ++ rest).data)
      = domain.data ++ '/' :: rest.data := by
    rw [hdata]
    unfold dropLeadingSlashes
    rw [List.dropWhile_cons, if_pos (by decide)]
    rw [hdom, List.cons_append, List.dropWhile_cons]
    rw [if_neg (by simpa using hc0)]
  have hjoin := joinChar_splitOnChar '/' rest.data
  have hsplit := splitOnChar_append_sep '/' domain.data rest.data hslash
  cases hq : splitOnChar '/' rest.data with
  | nil => exact absurd hq (splitOnChar_ne_nil _ _)
  | cons q qs =>
    rw [hq] at hsplit hjoin
    unfold parseUrl
    rw [hdecode]
    simp only [hdrop, hsplit, hmk, hjoin, hmk2, hd, Bool.not_true,
      Bool.false_eq_true, if_false]

/-- Closed witness for the round-trip theorem at a concrete pair whose
path needs percent-encoding. -/
theorem parseUrl_roundtrip_witness :
    isValidDomain "example.com" = true ∧
    '/' ∉ "example.com".data ∧
    '%' ∉ "example.com".data ∧
    '%' ∉ "wp content/a.jpg".data ∧
    parseUrl ("/" ++ "example.com" ++ "/" ++ "wp content/a.jpg") none none =
      .ok { domain := "example.com"
            path := "/" ++ "wp content/a.jpg"
            sourceUrl := "https://" ++ "example.com" ++ encodePath ("/" ++ "wp content/a.jpg")
            cacheKey := "example.com" ++ ("/" ++ "wp content/a.jpg")
            forceReprocess := (none : Option String) == some "true" || (none : Option String) == some "1"
            viewImage := (none : Option String) == some "true" || (none : Option String) == some "1" } :=
  ⟨by decide, by decide, by decide, by decide,
   parseUrl_roundtrip "example.com" "wp content/a.jpg" none none
     (by decide) (by decide) (by decide) (by decide)⟩

end ImgPro
